import Mathlib

/-!
Shallow embedding of the storage parallel task-execution engine of this
repository, covering `task_graph_executor.py` and
`tasks/cp/file_part_download_task.py`.  Container types from `task.py`
(`Message`, `Output`) and the top-level admission control of `task_graph.py`
are not in the tree; where needed they are modelled from the design
document, and each such definition says so in its doc comment.
-/

namespace Gcloud

/-- Message topics (`task.Topic` in `task.py`, used by the executor sources). -/
inductive Topic
  | FATAL_ERROR
  | ERROR
  | CRC32C
deriving DecidableEq, Repr

/-- An opaque Python exception value. -/
structure Exn where
  msg : String
deriving DecidableEq, Repr

/-- Payloads carried by messages in the embedded sources: `{}` for the worker's
fatal-error message, a caught exception for component errors, and the CRC32C
checksum report of a sliced-download component. -/
inductive Payload
  | emptyDict
  | exception (e : Exn)
  | crcReport (component_number : Option Nat) (crc32c_checksum : Nat) (length : Nat)
deriving DecidableEq, Repr

/-- Model of `task.Message`: a typed payload produced by an executed task. -/
structure Message where
  topic : Topic
  payload : Payload
deriving DecidableEq, Repr

/-- A task as the executor sees it: opaque identity plus the `report_error`
flag consulted by `_thread_worker`. -/
structure Task where
  id : Nat
  report_error : Bool
deriving DecidableEq, Repr

/-- Model of `task.Output`: optional additional task iterators plus optional messages. -/
structure Output where
  additional_task_iterators : Option (List (List Task))
  messages : Option (List Message)
deriving DecidableEq, Repr

/-- A task wrapper as passed through the executor queues (the dependency
bookkeeping fields of `task_graph.TaskWrapper` are not needed here). -/
structure TaskWrapper where
  task : Task
  is_submitted : Bool
deriving DecidableEq, Repr

/-! ## `_thread_worker` (task_graph_executor.py, lines 118-156) -/

/-- The `try/except` around `task_wrapper.task.execute` in `_thread_worker`:
on success the task's output is used as is; on any exception the output is a
single fatal-error message if `report_error` is set, and `None` otherwise. -/
def thread_worker_handle_result (execResult : Except Exn (Option Output))
    (report_error : Bool) : Option Output :=
  match execResult with
  | Except.ok task_output => task_output
  | Except.error _ =>
      if report_error then
        some { additional_task_iterators := none
               messages := some [{ topic := Topic.FATAL_ERROR, payload := Payload.emptyDict }] }
      else
        none

/-- One `_thread_worker` loop iteration after dequeuing `task_wrapper`: the
pair that is put on `task_output_queue`. -/
def thread_worker_step (task_wrapper : TaskWrapper)
    (execResult : Except Exn (Option Output)) : TaskWrapper × Option Output :=
  (task_wrapper, thread_worker_handle_result execResult task_wrapper.task.report_error)

/-! ## `_handle_task_output` and the exit code (task_graph_executor.py, lines 391-408, 410-468) -/

/-- The body of the `if task_output and task_output.messages:` block in
`_handle_task_output`: iterate over the messages, setting `exit_code` to 1 on
each `FATAL_ERROR` topic. -/
def update_exit_code (exit_code : Nat) (task_output : Option Output) : Nat :=
  match task_output with
  | none => exit_code
  | some out =>
      match out.messages with
      | none => exit_code
      | some msgs =>
          msgs.foldl (fun ec m => if m.topic == Topic.FATAL_ERROR then 1 else ec) exit_code

/-- Whether an executed task's output contains a fatal-error message (the
condition under which `_handle_task_output` sets the exit code). -/
def has_fatal_error (task_output : Option Output) : Bool :=
  match task_output with
  | none => false
  | some out =>
      match out.messages with
      | none => false
      | some msgs => msgs.any (fun m => m.topic == Topic.FATAL_ERROR)

/-- Items received on `task_output_queue` by the completion loop. -/
inductive OutputQueueItem
  | shutdown
  | result (wrapper : TaskWrapper) (output : Option Output)
deriving DecidableEq, Repr

/-- The `_handle_task_output` loop over the items it dequeues, threading
`self._exit_code`.  Returns the final exit code together with the list of
`(wrapper, output)` pairs forwarded to `TaskGraph.update_from_executed_task`
(in order); the loop stops only at the `_SHUTDOWN` marker. -/
def handle_task_output : List OutputQueueItem → Nat → Nat × List (TaskWrapper × Option Output)
  | [], exit_code => (exit_code, [])
  | OutputQueueItem.shutdown :: _, exit_code => (exit_code, [])
  | OutputQueueItem.result w o :: rest, exit_code =>
      let r := handle_task_output rest (update_exit_code exit_code o)
      (r.1, (w, o) :: r.2)

/-- The exit code `run()` returns, as a function of the completed
`(wrapper, output)` pairs delivered on the output queue before the shutdown
marker: `self._exit_code` starts at 0 and is written only by
`_handle_task_output`. -/
def run_exit_code (completed : List (TaskWrapper × Option Output)) : Nat :=
  (handle_task_output
    (completed.map (fun p => OutputQueueItem.result p.1 p.2) ++ [OutputQueueItem.shutdown]) 0).1

theorem foldl_fatal_eq (msgs : List Message) (ec : Nat) :
    msgs.foldl (fun ec m => if m.topic == Topic.FATAL_ERROR then 1 else ec) ec
      = if msgs.any (fun m => m.topic == Topic.FATAL_ERROR) then 1 else ec := by
  induction msgs generalizing ec with
  | nil => rfl
  | cons m rest ih =>
      simp only [List.foldl_cons, List.any_cons, ih]
      by_cases hm : (m.topic == Topic.FATAL_ERROR) = true
      · simp [hm, ite_self]
      · simp only [Bool.not_eq_true] at hm
        simp [hm]

theorem update_exit_code_eq (ec : Nat) (o : Option Output) :
    update_exit_code ec o = if has_fatal_error o then 1 else ec := by
  cases o with
  | none => rfl
  | some out =>
      cases h : out.messages with
      | none => simp [update_exit_code, has_fatal_error, h]
      | some msgs =>
          simp only [update_exit_code, has_fatal_error, h]
          exact foldl_fatal_eq msgs ec

theorem handle_task_output_trace (pairs : List (TaskWrapper × Option Output)) (ec : Nat) :
    handle_task_output
        (pairs.map (fun p => OutputQueueItem.result p.1 p.2) ++ [OutputQueueItem.shutdown]) ec
      = ((if pairs.any (fun p => has_fatal_error p.2) then 1 else ec), pairs) := by
  induction pairs generalizing ec with
  | nil => simp [handle_task_output]
  | cons p rest ih =>
      simp only [List.map_cons, List.cons_append, handle_task_output, List.append_eq]
      rw [update_exit_code_eq, ih]
      by_cases hp : has_fatal_error p.2 = true
      · simp [hp, List.any_cons, ite_self]
      · simp only [Bool.not_eq_true] at hp
        simp only [List.any_cons, hp, Bool.false_or]
        simp

/-- C1: over any run whose completion loop receives the `(wrapper, output)`
pairs `completed` followed by the shutdown marker, `run()`'s exit code (written
only by `_handle_task_output`, starting at 0) is 1 if at least one executed
task's output contained a `FATAL_ERROR` message and 0 otherwise — in
particular 0 when the producer yields zero tasks (`completed = []`) — and a
fatal-error message does not stop the loop: every received pair, including
those after the fatal one, is still forwarded to
`TaskGraph.update_from_executed_task`, so in-flight and pending sibling tasks
keep being dispatched and executed. -/
theorem C1_fatal_error_exit_code (completed : List (TaskWrapper × Option Output)) :
    run_exit_code completed
        = (if completed.any (fun p => has_fatal_error p.2) then 1 else 0)
      ∧ (handle_task_output
           (completed.map (fun p => OutputQueueItem.result p.1 p.2)
             ++ [OutputQueueItem.shutdown]) 0).2 = completed
      ∧ run_exit_code [] = 0 := by
  refine ⟨?_, ?_, rfl⟩
  · unfold run_exit_code
    rw [handle_task_output_trace]
  · rw [handle_task_output_trace]

/-- C4: a worker thread never propagates an exception raised by
`task.execute`: the `(wrapper, output)` pair it puts on the output queue has
output equal to an `Output` with no additional task iterators and exactly one
`FATAL_ERROR` message when the task's `report_error` flag is true, and `None`
(the failure silently dropped) when `report_error` is false. -/
theorem C4_thread_worker_catches_exceptions (w : TaskWrapper) (e : Exn) :
    thread_worker_step w (Except.error e)
      = (w, if w.task.report_error then
              some { additional_task_iterators := none
                     messages := some [{ topic := Topic.FATAL_ERROR,
                                         payload := Payload.emptyDict }] }
            else none) := rfl

/-! ## `_add_executable_tasks_to_queue` and lazy worker spawning
(task_graph_executor.py, lines 340-343, 368-389, 410-439) -/

/-- What the dispatch loop observes from the shared queues in one iteration:
whether the non-blocking `put` on the capacity-1 task queue raises
`queue.Full`, and whether `idle_thread_count.acquire(block=False)` succeeds. -/
structure DispatchObs where
  put_raises_full : Bool
  idle_thread_available : Bool
deriving DecidableEq, Repr

/-- One iteration of the `while True` body of `_add_executable_tasks_to_queue`
holding a task wrapper: returns whether `_add_worker_process` is called (a
`_CREATE_WORKER_PROCESS` signal is enqueued).  When
`reached_process_limit` is true the `put` is blocking, so `queue.Full` is never
raised and no signal can be sent. -/
def dispatch_iteration (max_process_count process_count : Nat) (obs : DispatchObs) : Bool :=
  let reached_process_limit := max_process_count ≤ process_count
  if reached_process_limit then false
  else if obs.put_raises_full then
    if obs.idle_thread_available then false else true
  else false

/-- The dispatch loop over a sequence of observations, threading
`self._process_count` (incremented by `_add_worker_process` on each signal).
Returns, per iteration, the process count before the iteration, the
observation, and whether a `_CREATE_WORKER_PROCESS` signal was enqueued. -/
def dispatch_loop (max_process_count : Nat) :
    Nat → List DispatchObs → List (Nat × DispatchObs × Bool)
  | _, [] => []
  | process_count, obs :: rest =>
      let emitted := dispatch_iteration max_process_count process_count obs
      (process_count, obs, emitted)
        :: dispatch_loop max_process_count
             (process_count + (if emitted then 1 else 0)) rest

/-- The number of `_CREATE_WORKER_PROCESS` signals `run()` enqueues: one
unconditional `self._add_worker_process()` at startup (so the dispatch loop
runs with `_process_count = 1`) plus the signals of the dispatch loop. -/
def run_create_signal_count (max_process_count : Nat) (obsList : List DispatchObs) : Nat :=
  1 + (dispatch_loop max_process_count 1 obsList).countP (fun r => r.2.2)

/-- C3 counterexample: the claim says a `_CREATE_WORKER_PROCESS` signal is
enqueued only when the non-blocking put on the task queue is observed full and
no worker thread is idle, and never otherwise; but `run()` unconditionally
requests one worker process at startup, before any task is dispatched.  With
`max_process_count = 4` and a run in which the dispatch loop never observes
the queue full (no observations at all, e.g. a producer yielding zero tasks),
one signal is still enqueued, and it does not come from the dispatch loop. -/
theorem C3_counterexample_startup_signal :
    run_create_signal_count 4 [] = 1
      ∧ (dispatch_loop 4 1 []).countP (fun r => r.2.2) = 0 := by
  exact ⟨rfl, rfl⟩

/-- C3 (amended): apart from the single unconditional worker-process request
made at the start of `run()`, a `_CREATE_WORKER_PROCESS` signal is enqueued by
the dispatch loop only in an iteration in which the non-blocking put on the
capacity-1 task queue raised `queue.Full`, the idle-thread semaphore could not
be acquired, and the process count was still below `max_process_count` (once
the count reaches the limit the put becomes blocking and can no longer raise
`queue.Full`, so no further process is ever requested). -/
theorem C3_lazy_spawn_only_on_backpressure (max_process_count pc : Nat)
    (obsList : List DispatchObs) (entry_pc : Nat) (obs : DispatchObs)
    (hmem : (entry_pc, obs, true) ∈ dispatch_loop max_process_count pc obsList) :
    obs.put_raises_full = true ∧ obs.idle_thread_available = false
      ∧ entry_pc < max_process_count := by
  induction obsList generalizing pc with
  | nil => simp [dispatch_loop] at hmem
  | cons o rest ih =>
      simp only [dispatch_loop, List.mem_cons] at hmem
      rcases hmem with hhead | htail
      · have hpc : entry_pc = pc := congrArg Prod.fst hhead
        have hobs : obs = o := congrArg (fun t => t.2.1) hhead
        have hemit : dispatch_iteration max_process_count pc o = true :=
          (congrArg (fun t => t.2.2) hhead).symm
        subst hpc hobs
        unfold dispatch_iteration at hemit
        by_cases hlim : max_process_count ≤ entry_pc
        · simp [hlim] at hemit
        · simp only [hlim, if_false] at hemit
          by_cases hfull : obs.put_raises_full = true
          · by_cases hidle : obs.idle_thread_available = true
            · simp [hfull, hidle] at hemit
            · simp only [Bool.not_eq_true] at hidle
              exact ⟨hfull, hidle, Nat.lt_of_not_le hlim⟩
          · simp only [Bool.not_eq_true] at hfull
            simp [hfull] at hemit
      · exact ih _ htail

/-- C3 witness: a concrete dispatch iteration with the queue observed full, no
idle thread, and the process count below the limit, in which the signal is
emitted; the theorem's conclusions hold there. -/
theorem C3_lazy_spawn_witness :
    (⟨true, false⟩ : DispatchObs).put_raises_full = true
      ∧ (⟨true, false⟩ : DispatchObs).idle_thread_available = false
      ∧ 1 < 2 :=
  C3_lazy_spawn_only_on_backpressure 2 1 [⟨true, false⟩] 1 ⟨true, false⟩ (by decide)

/-! ## Top-level admission control
(`_get_tasks_from_iterator`, task_graph_executor.py lines 345-366; the
`TaskGraph` itself lives in task_graph.py, which is not in the tree) -/

/-- A top-level task wrapper with the submitted flag set by the ingest loop
and a completion flag (a childless top-level task's subtree is just itself,
so it is fully drained exactly when it completes). -/
structure TopLevelWrapper where
  task : Task
  is_submitted : Bool
  is_complete : Bool
deriving DecidableEq, Repr

/-- The number of wrappers currently marked submitted and incomplete. -/
def submitted_incomplete_count (graph : List TopLevelWrapper) : Nat :=
  graph.countP (fun w => w.is_submitted && !w.is_complete)

/-- Modelled from the spec: `TaskGraph.add` for a new top-level task
(task_graph.py is not in the tree).  The task is accepted only while the
number of currently-submitted top-level tasks is below
`top_level_task_limit`; otherwise `add` returns `None`.  On acceptance the
returned wrapper is immediately marked submitted by the ingest loop
(`task_wrapper.is_submitted = True`), so the accepted wrapper is appended
already submitted; the limit slot is freed when the (childless) task
completes. -/
def task_graph_add_top_level (top_level_task_limit : Nat)
    (graph : List TopLevelWrapper) (t : Task) : Option (List TopLevelWrapper) :=
  if submitted_incomplete_count graph < top_level_task_limit then
    some (graph ++ [{ task := t, is_submitted := true, is_complete := false }])
  else
    none

/-- Marks the `i`-th wrapper of the graph complete (the effect, for a
childless top-level task, of `update_from_executed_task` freeing its slot). -/
def mark_complete : List TopLevelWrapper → Nat → List TopLevelWrapper
  | [], _ => []
  | w :: rest, 0 => { w with is_complete := true } :: rest
  | w :: rest, Nat.succ n => w :: mark_complete rest n

/-- Events interleaving the ingest loop with the completion loop. -/
inductive ExecutorEvent
  | ingest
  | complete (i : Nat)
deriving DecidableEq, Repr

/-- Executor state for top-level admission: the tasks the producer has not
yet yielded, and the graph's top-level wrappers. -/
structure ExecState where
  pending : List Task
  graph : List TopLevelWrapper
deriving DecidableEq, Repr

/-- One step of the interleaved system.  `ingest` is one iteration of
`_get_tasks_from_iterator`: pull the next task, call `TaskGraph.add`, and on
rejection `continue` — the loop moves on to the next produced task, so the
rejected task is dropped from `pending` without being recorded anywhere.
`complete i` is the completion loop draining the `i`-th wrapper. -/
def exec_step (top_level_task_limit : Nat) (s : ExecState) : ExecutorEvent → ExecState
  | ExecutorEvent.ingest =>
      match s.pending with
      | [] => s
      | t :: rest =>
          match task_graph_add_top_level top_level_task_limit s.graph t with
          | some g => { pending := rest, graph := g }
          | none => { pending := rest, graph := s.graph }
  | ExecutorEvent.complete i => { pending := s.pending, graph := mark_complete s.graph i }

/-- Runs the interleaved system over a list of events. -/
def exec_run (top_level_task_limit : Nat) (s : ExecState)
    (events : List ExecutorEvent) : ExecState :=
  events.foldl (exec_step top_level_task_limit) s

theorem submitted_incomplete_count_append_new (graph : List TopLevelWrapper) (t : Task) :
    submitted_incomplete_count
        (graph ++ [{ task := t, is_submitted := true, is_complete := false }])
      = submitted_incomplete_count graph + 1 := by
  simp [submitted_incomplete_count, List.countP_append, List.countP_cons]

theorem submitted_incomplete_count_mark_complete (graph : List TopLevelWrapper) (i : Nat) :
    submitted_incomplete_count (mark_complete graph i)
      ≤ submitted_incomplete_count graph := by
  induction graph generalizing i with
  | nil => simp [mark_complete]
  | cons w rest ih =>
      cases i with
      | zero =>
          simp only [mark_complete, submitted_incomplete_count, List.countP_cons]
          have h1 : (({ w with is_complete := true } : TopLevelWrapper).is_submitted
              && !({ w with is_complete := true } : TopLevelWrapper).is_complete) = false := by
            cases w
            simp
          rw [h1]
          have h2 : (if (false = true) then 1 else 0) = 0 := rfl
          rw [h2, Nat.add_zero]
          exact Nat.le_add_right _ _
      | succ n =>
          simp only [mark_complete, submitted_incomplete_count, List.countP_cons]
          have := ih n
          simp only [submitted_incomplete_count] at this
          omega

theorem exec_step_preserves_bound (limit : Nat) (s : ExecState) (ev : ExecutorEvent)
    (h : submitted_incomplete_count s.graph ≤ limit) :
    submitted_incomplete_count (exec_step limit s ev).graph ≤ limit := by
  cases ev with
  | ingest =>
      cases hp : s.pending with
      | nil => simpa [exec_step, hp] using h
      | cons t rest =>
          simp only [exec_step, hp]
          unfold task_graph_add_top_level
          by_cases hc : submitted_incomplete_count s.graph < limit

          · simp only [hc, if_true]
            rw [submitted_incomplete_count_append_new]
            omega
          · simpa [hc] using h
  | complete i =>
      simp only [exec_step]
      exact le_trans (submitted_incomplete_count_mark_complete s.graph i) h

/-- C2 (amended): top-level admission control.  With
`top_level_task_limit = K`, for every producer task list and every
interleaving of ingest and completion events — in particular a producer
yielding `K+5` childless top-level tasks — at most `K` wrappers are ever
simultaneously marked submitted and incomplete: every reachable state of the
interleaved system satisfies the bound, because `TaskGraph.add` accepts a new
top-level task only while the number of currently-submitted top-level tasks
is below the limit.  (A task the graph rejects is, however, dropped by the
ingest loop rather than retried: see the counterexample.) -/
theorem C2_top_level_admission_bound (top_level_task_limit : Nat)
    (pending : List Task) (events : List ExecutorEvent) :
    submitted_incomplete_count
        (exec_run top_level_task_limit { pending := pending, graph := [] } events).graph
      ≤ top_level_task_limit := by
  have main : ∀ (evs : List ExecutorEvent) (s : ExecState),
      submitted_incomplete_count s.graph ≤ top_level_task_limit →
      submitted_incomplete_count (exec_run top_level_task_limit s evs).graph
        ≤ top_level_task_limit := by
    intro evs
    induction evs with
    | nil => intro s h; exact h
    | cons ev rest ih =>
        intro s h
        exact ih _ (exec_step_preserves_bound top_level_task_limit s ev h)
  exact main events _ (by simp [submitted_incomplete_count])

/-- C2 counterexample: the claim says a task the graph rejects is retried
later by the ingest loop rather than permanently dropped.  In the source,
`_get_tasks_from_iterator` reacts to a rejection with `continue`, which pulls
the *next* task from the iterator.  With `top_level_task_limit = 1` and a
producer yielding tasks 1 and 2 with no completion in between, after two
ingest iterations the producer is exhausted (`pending = []`) and only task 1
was ever added to the graph: task 2 is gone and there is nothing left to
retry it from. -/
theorem C2_counterexample_rejected_task_dropped :
    exec_run 1
        { pending := [{ id := 1, report_error := true }, { id := 2, report_error := true }],
          graph := [] }
        [ExecutorEvent.ingest, ExecutorEvent.ingest]
      = { pending := [],
          graph := [{ task := { id := 1, report_error := true },
                      is_submitted := true, is_complete := false }] } := by
  decide

/-! ## `file_part_download_task.py`: null-byte resume scan (lines 45-78) -/

/-- Value of `_READ_SIZE = 8192`. -/
def READ_SIZE : Nat := 8192

/-- Model of `data.find(NULL_BYTE)` on a chunk of bytes: the index of the first zero
byte, or `none` where Python returns -1. -/
def find_null_byte : List Nat → Option Nat
  | [] => none
  | b :: rest => if b = 0 then some 0 else (find_null_byte rest).map (· + 1)

/-- The `while first_null_byte < end_of_range` loop of
`_get_first_null_byte_index`: the destination file is `content`, reads start
at the current position `first_null_byte` and return at most `READ_SIZE`
bytes; an empty read breaks; a chunk containing a zero byte returns the
position of that zero; otherwise the position advances by the chunk length.
The structural `fuel` only bounds the iteration count; the top-level entry
point supplies enough fuel for the loop to run to its own exit. -/
def scan_for_null (content : List Nat) (end_of_range : Nat) :
    Nat → Nat → Nat
  | 0, first_null_byte => first_null_byte
  | fuel + 1, first_null_byte =>
      if first_null_byte < end_of_range then
        let data := (content.drop first_null_byte).take READ_SIZE
        if data.isEmpty then first_null_byte
        else
          match find_null_byte data with
          | some null_byte_index => first_null_byte + null_byte_index
          | none => scan_for_null content end_of_range fuel (first_null_byte + data.length)
      else first_null_byte

/-- Model of `_get_first_null_byte_index(destination_url, offset, length)`: returns 0
when the destination does not exist; otherwise seeks to `offset` and scans
chunks for the first zero byte as above, with `end_of_range = offset +
length`. -/
def get_first_null_byte_index (dest_exists : Bool) (content : List Nat)
    (offset length : Nat) : Nat :=
  if dest_exists then
    scan_for_null content (offset + length) (content.length + 1) offset
  else 0

/-! ## Digester policy (`_get_digesters`, lines 81-113) -/

/-- Values of `properties.CheckHashes`. -/
inductive CheckHashes
  | if_fast_else_skip
  | if_fast_else_fail
  | always
  | never
deriving DecidableEq, Repr

/-- Model of `hash_util.HashAlgorithm`. -/
inductive HashAlgorithm
  | MD5
  | CRC32C
deriving DecidableEq, Repr

/-- Python truthiness of an optional hash string (`resource.md5_hash` /
`resource.crc32c_hash`): `None` and the empty string are falsy. -/
def truthy_str : Option String → Bool
  | none => false
  | some s => !s.isEmpty

/-- Model of `_get_digesters(component_number, resource)`: the set of digester keys
created, as a list.  `is_fast_google_crc32c_available` stands for
`crc32c.IS_FAST_GOOGLE_CRC32C_AVAILABLE`. -/
def get_digesters (check_hashes : CheckHashes) (component_number : Option Nat)
    (md5_hash crc32c_hash : Option String)
    (is_fast_google_crc32c_available : Bool) : List HashAlgorithm :=
  if check_hashes = CheckHashes.never then []
  else if component_number.isNone && truthy_str md5_hash then
    [HashAlgorithm.MD5]
  else if component_number.isSome && truthy_str crc32c_hash
      && (is_fast_google_crc32c_available || check_hashes == CheckHashes.always) then
    [HashAlgorithm.CRC32C]
  else []

/-! ## `_perform_download` and the task paths (lines 154-319) -/

/-- Model of `cloud_api.DownloadStrategy`. -/
inductive DownloadStrategy
  | ONE_SHOT
  | RESUMABLE
deriving DecidableEq, Repr

/-- Model of `files.BinaryFileWriterMode`. -/
inductive BinaryFileWriterMode
  | TRUNCATE
  | MODIFY
deriving DecidableEq, Repr

/-- The arguments of a `download_object` provider call made by
`_perform_download` (`end_byte` is an `Int` because the Python code computes
it as `size - 1`). -/
structure DownloadApiCall where
  download_strategy : DownloadStrategy
  start_byte : Nat
  end_byte : Int
deriving DecidableEq, Repr

/-- Observable effects of one `_perform_download` call. -/
structure PerformDownloadTrace where
  write_mode : BinaryFileWriterMode
  seek_to : Nat
  api_call : Option DownloadApiCall
  direct_progress_calls : List Nat
  md5_validated : Bool
deriving DecidableEq, Repr

/-- Model of `_perform_download(progress_callback, download_strategy, start_byte,
end_byte, write_mode, digesters)`: opens the destination stream in
`write_mode`, seeks to `start_byte`, calls the provider's `download_object`
only when the source size is nonzero, and otherwise calls the progress
callback directly once with 0 bytes; afterwards runs MD5 validation exactly
when an MD5 digester is present. -/
def perform_download (source_size : Nat) (download_strategy : DownloadStrategy)
    (start_byte : Nat) (end_byte : Int) (write_mode : BinaryFileWriterMode)
    (digesters : List HashAlgorithm) : PerformDownloadTrace :=
  { write_mode := write_mode
    seek_to := start_byte
    api_call :=
      if source_size ≠ 0 then
        some { download_strategy := download_strategy
               start_byte := start_byte
               end_byte := end_byte }
      else none
    direct_progress_calls := if source_size ≠ 0 then [] else [0]
    md5_validated := digesters.contains HashAlgorithm.MD5 }

/-- Observable effects of `_perform_resumable_download`. -/
structure ResumableDownloadTrace where
  start_byte : Nat
  write_mode : BinaryFileWriterMode
  catch_up_range : Option (Nat × Nat)
  download : PerformDownloadTrace
deriving DecidableEq, Repr

/-- Model of `_perform_resumable_download(progress_callback, digesters)`:
`create_file_if_needed` (collaborator) first ensures the destination file
exists, so the null-byte scan runs with an existing file whose bytes are
`dest_content`; `found_tracker_file` is the flag returned by
`tracker_file_util.read_or_create_download_tracker_file`. -/
def perform_resumable_download (source_size : Nat) (dest_content : List Nat)
    (offset length : Nat) (found_tracker_file : Bool)
    (digesters : List HashAlgorithm) : ResumableDownloadTrace :=
  let first_null_byte := get_first_null_byte_index true dest_content offset length
  let start_byte := if found_tracker_file then first_null_byte else 0
  let end_byte : Int := (source_size : Int) - 1
  if start_byte ≠ 0 then
    { start_byte := start_byte
      write_mode := BinaryFileWriterMode.MODIFY
      catch_up_range := some (0, start_byte)
      download := perform_download source_size DownloadStrategy.RESUMABLE
        start_byte end_byte BinaryFileWriterMode.MODIFY digesters }
  else
    { start_byte := start_byte
      write_mode := BinaryFileWriterMode.TRUNCATE
      catch_up_range := none
      download := perform_download source_size DownloadStrategy.RESUMABLE
        start_byte end_byte BinaryFileWriterMode.TRUNCATE digesters }

/-- Model of `_get_output(digesters)`: `None` unless a CRC32C digester is present,
otherwise an `Output` with the component's checksum message.
`crc32c_checksum` stands for `crc32c.get_checksum(...)` of the digester. -/
def get_output (digesters : List HashAlgorithm) (component_number : Option Nat)
    (crc32c_checksum : Nat) (length : Nat) : Option Output :=
  if digesters.contains HashAlgorithm.CRC32C then
    some { additional_task_iterators := none
           messages := some [{ topic := Topic.CRC32C
                               payload := Payload.crcReport component_number
                                 crc32c_checksum length }] }
  else none

/-- Observable effects of `_perform_component_download`. -/
structure ComponentDownloadTrace where
  catch_up_range : Option (Nat × Nat)
  download : Option PerformDownloadTrace
  output : Option Output
deriving DecidableEq, Repr

/-- Model of `_perform_component_download(progress_callback, digesters)`: for the
resumable strategy it consults the component tracker file and the null-byte
scan of the component's range; a start byte past the component's end byte
means the range was fully downloaded before, so no transfer is performed and
the digesters are caught up from `offset` to the *source size*; otherwise a
partial resume catches up `[offset, start_byte)` and the transfer runs in
modify mode.  Non-resumable sliced downloads start at `offset` directly. -/
def perform_component_download (source_size : Nat) (dest_exists : Bool)
    (dest_content : List Nat) (offset length : Nat)
    (strategy : DownloadStrategy) (found_tracker_file : Bool)
    (digesters : List HashAlgorithm) (component_number : Option Nat)
    (crc32c_checksum : Nat) : ComponentDownloadTrace :=
  let end_byte : Int := (offset : Int) + (length : Int) - 1
  if strategy = DownloadStrategy.RESUMABLE then
    let first_null_byte := get_first_null_byte_index dest_exists dest_content offset length
    let start_byte := if found_tracker_file then first_null_byte else offset
    if (start_byte : Int) > end_byte then
      { catch_up_range := some (offset, source_size)
        download := none
        output := get_output digesters component_number crc32c_checksum length }
    else
      { catch_up_range :=
          if found_tracker_file && start_byte ≠ offset then some (offset, start_byte)
          else none
        download := some (perform_download source_size strategy start_byte end_byte
          BinaryFileWriterMode.MODIFY digesters)
        output := get_output digesters component_number crc32c_checksum length }
  else
    { catch_up_range := none
      download := some (perform_download source_size strategy offset end_byte
        BinaryFileWriterMode.MODIFY digesters)
      output := get_output digesters component_number crc32c_checksum length }

/-- Python truthiness of `self._source_resource.size`. -/
def truthy_size : Option Nat → Bool
  | none => false
  | some n => n != 0

/-- Model of `FilePartDownloadTask.execute(task_status_queue)`: when the source size is
truthy and a component number is set, the component download runs inside
`try/except` and any exception becomes an `ERROR` message; otherwise the
whole-object resumable or one-shot path runs with no handler, so its outcome
(`whole_object_result`, an oracle for `_perform_resumable_download` /
`_perform_one_shot_download`, which return no output) propagates. -/
def task_execute (source_size : Option Nat) (component_number : Option Nat)
    (component_download_result : Except Exn (Option Output))
    (whole_object_result : Except Exn Unit) : Except Exn (Option Output) :=
  if truthy_size source_size && component_number.isSome then
    Except.ok
      (match component_download_result with
       | Except.ok out => out
       | Except.error e =>
           some { additional_task_iterators := none
                  messages := some [{ topic := Topic.ERROR
                                      payload := Payload.exception e }] })
  else
    match whole_object_result with
    | Except.ok _ => Except.ok none
    | Except.error e => Except.error e

/-- C5: digester-creation policy of `_get_digesters`.  With verification
globally disabled (`check_hashes = never`) no digester is created; an MD5
digester is created exactly for a non-sliced download whose source exposes an
MD5 hash; a CRC32C digester exactly for a sliced-download component whose
source exposes a CRC32C hash when a fast native CRC32C implementation is
available or `check_hashes = always`; the dictionary never holds more than
one digester and is empty in all remaining cases. -/
theorem C5_digester_policy (check_hashes : CheckHashes) (component_number : Option Nat)
    (md5_hash crc32c_hash : Option String) (fast : Bool) :
    (check_hashes = CheckHashes.never →
        get_digesters check_hashes component_number md5_hash crc32c_hash fast = [])
    ∧ (HashAlgorithm.MD5 ∈ get_digesters check_hashes component_number md5_hash crc32c_hash fast
        ↔ check_hashes ≠ CheckHashes.never ∧ component_number = none
            ∧ truthy_str md5_hash = true)
    ∧ (HashAlgorithm.CRC32C ∈ get_digesters check_hashes component_number md5_hash crc32c_hash fast
        ↔ check_hashes ≠ CheckHashes.never ∧ component_number ≠ none
            ∧ truthy_str crc32c_hash = true
            ∧ (fast = true ∨ check_hashes = CheckHashes.always))
    ∧ (get_digesters check_hashes component_number md5_hash crc32c_hash fast = []
        ∨ get_digesters check_hashes component_number md5_hash crc32c_hash fast
            = [HashAlgorithm.MD5]
        ∨ get_digesters check_hashes component_number md5_hash crc32c_hash fast
            = [HashAlgorithm.CRC32C]) := by
  unfold get_digesters
  split_ifs with h1 h2 h3
  · simp [h1]
  · have h2' : component_number.isNone = true ∧ truthy_str md5_hash = true := by
      simpa using h2
    have hcn : component_number = none := Option.isNone_iff_eq_none.mp h2'.1
    simp [h1, hcn, h2'.2]
  · have h3' : component_number.isSome = true ∧ truthy_str crc32c_hash = true
        ∧ (fast = true ∨ check_hashes = CheckHashes.always) := by
      simpa [and_assoc] using h3
    have hcs : component_number ≠ none := by
      intro hc
      rw [hc] at h3'
      simp [Option.isSome] at h3'
    simp [h1, hcs, h3'.2.1, h3'.2.2]
  · refine ⟨fun hc => absurd hc h1, ?_, ?_, Or.inl rfl⟩
    · simp only [List.not_mem_nil, false_iff]
      rintro ⟨-, hcn, ht⟩
      exact h2 (by simp [hcn, ht])
    · simp only [List.not_mem_nil, false_iff]
      rintro ⟨-, hcs, ht, hor⟩
      apply h3
      have hs : component_number.isSome = true := Option.isSome_iff_ne_none.mpr hcs
      have hb : (fast || (check_hashes == CheckHashes.always)) = true := by
        rcases hor with hf | ha
        · simp [hf]
        · simp [ha]
      simp [hs, ht, hb]

/-- C5 witness: a non-sliced download with an exposed MD5 hash and default
hash checking gets an MD5 digester. -/
theorem C5_digester_policy_witness :
    HashAlgorithm.MD5
      ∈ get_digesters CheckHashes.if_fast_else_skip none (some "md5value") none false :=
  ((C5_digester_policy CheckHashes.if_fast_else_skip none (some "md5value") none
      false).2.1).mpr ⟨by decide, rfl, rfl⟩

/-- C10: for a zero-sized source, `_perform_download` never calls the
provider's `download_object`: it opens the destination stream in the given
mode, seeks to the start byte, and invokes the progress callback directly,
exactly once, with 0 bytes (MD5 validation still runs iff an MD5 digester is
present, unchanged by the size). -/
theorem C10_zero_size_no_api_call (download_strategy : DownloadStrategy)
    (start_byte : Nat) (end_byte : Int) (write_mode : BinaryFileWriterMode)
    (digesters : List HashAlgorithm) :
    perform_download 0 download_strategy start_byte end_byte write_mode digesters
      = { write_mode := write_mode
          seek_to := start_byte
          api_call := none
          direct_progress_calls := [0]
          md5_validated := digesters.contains HashAlgorithm.MD5 } := rfl

/-- C9: when the source size is truthy (nonzero) and a component number is
set, `execute` runs the component download inside `try/except`: a successful
component download's output is returned as is, and any exception `e` it
raises is converted into an `Output` with a single `ERROR` message whose
payload is `e`; in both cases `execute` returns normally (`Except.ok`) —
the exception is never propagated to the caller. -/
theorem C9_component_exception_to_error_message (k n : Nat)
    (component_download_result : Except Exn (Option Output))
    (whole_object_result : Except Exn Unit) :
    task_execute (some (k + 1)) (some n) component_download_result whole_object_result
      = Except.ok
          (match component_download_result with
           | Except.ok out => out
           | Except.error e =>
               some { additional_task_iterators := none
                      messages := some [{ topic := Topic.ERROR
                                          payload := Payload.exception e }] }) := by
  unfold task_execute truthy_size
  simp

/-- C7: resumable whole-object download semantics.  The start byte is the
first-null-byte index when a tracker file from a prior attempt exists and 0
otherwise; a nonzero start byte opens the destination in modify mode and
first catches the digesters up over `[0, start_byte)`; a zero start byte
opens the destination in truncate mode with no catch-up; the transfer is
handed to `_perform_download` with the resumable strategy over bytes
`start_byte` through `source size - 1` (the provider call itself is made
exactly when the source size is nonzero). -/
theorem C7_resumable_download_semantics (source_size : Nat) (dest_content : List Nat)
    (offset length : Nat) (found_tracker_file : Bool) (digesters : List HashAlgorithm) :
    (perform_resumable_download source_size dest_content offset length
        found_tracker_file digesters).start_byte
        = (if found_tracker_file
           then get_first_null_byte_index true dest_content offset length else 0)
    ∧ (perform_resumable_download source_size dest_content offset length
        found_tracker_file digesters).write_mode
        = (if (perform_resumable_download source_size dest_content offset length
                found_tracker_file digesters).start_byte ≠ 0
           then BinaryFileWriterMode.MODIFY else BinaryFileWriterMode.TRUNCATE)
    ∧ (perform_resumable_download source_size dest_content offset length
        found_tracker_file digesters).catch_up_range
        = (if (perform_resumable_download source_size dest_content offset length
                found_tracker_file digesters).start_byte ≠ 0
           then some (0, (perform_resumable_download source_size dest_content offset length
                found_tracker_file digesters).start_byte)
           else none)
    ∧ (perform_resumable_download source_size dest_content offset length
        found_tracker_file digesters).download
        = perform_download source_size DownloadStrategy.RESUMABLE
            ((perform_resumable_download source_size dest_content offset length
                found_tracker_file digesters).start_byte)
            ((source_size : Int) - 1)
            ((perform_resumable_download source_size dest_content offset length
                found_tracker_file digesters).write_mode)
            digesters := by
  unfold perform_resumable_download
  by_cases h0 : (if found_tracker_file
      then get_first_null_byte_index true dest_content offset length else 0) ≠ 0
  · rw [if_pos h0]
    refine ⟨rfl, ?_, ?_, rfl⟩ <;> simp [h0]
  · rw [if_neg h0]
    simp only [ne_eq, not_not] at h0
    refine ⟨rfl, ?_, ?_, rfl⟩ <;> simp [h0]

theorem scan_for_null_succ (content : List Nat) (end_of_range fuel pos : Nat) :
    scan_for_null content end_of_range (fuel + 1) pos
      = if pos < end_of_range then
          (if ((content.drop pos).take READ_SIZE).isEmpty then pos
           else
             match find_null_byte ((content.drop pos).take READ_SIZE) with
             | some j => pos + j
             | none =>
                 scan_for_null content end_of_range fuel
                   (pos + ((content.drop pos).take READ_SIZE).length))
        else pos := rfl

theorem chunk_getElem (content : List Nat) (pos m : Nat) (h : m < READ_SIZE) :
    ((content.drop pos).take READ_SIZE)[m]? = content[pos + m]? := by
  rw [List.getElem?_take]
  simp [h, List.getElem?_drop]

theorem chunk_length (content : List Nat) (pos : Nat) :
    ((content.drop pos).take READ_SIZE).length
      = min READ_SIZE (content.length - pos) := by
  simp [List.length_take, List.length_drop]

theorem find_null_byte_none (l : List Nat) (h : find_null_byte l = none) :
    ∀ j : Nat, l[j]? ≠ some 0 := by
  induction l with
  | nil => intro j; simp
  | cons b rest ih =>
      unfold find_null_byte at h
      by_cases hb : b = 0
      · rw [if_pos hb] at h
        exact absurd h (by simp)
      · rw [if_neg hb] at h
        have hrest : find_null_byte rest = none := by
          rcases hfind : find_null_byte rest with _ | j
          · rfl
          · rw [hfind] at h
            simp [Option.map] at h
        intro j
        cases j with
        | zero =>
            rw [List.getElem?_cons_zero]
            intro hc
            exact hb (by injection hc)
        | succ j' =>
            rw [List.getElem?_cons_succ]
            exact ih hrest j'

theorem find_null_byte_some (l : List Nat) (j : Nat) (h : find_null_byte l = some j) :
    l[j]? = some 0 ∧ ∀ k, k < j → l[k]? ≠ some 0 := by
  induction l generalizing j with
  | nil => simp [find_null_byte] at h
  | cons b rest ih =>
      unfold find_null_byte at h
      by_cases hb : b = 0
      · rw [if_pos hb] at h
        have hj : j = 0 := by injection h with h'; omega
        subst hj
        refine ⟨by simp [hb], ?_⟩
        intro k hk
        omega
      · rw [if_neg hb] at h
        obtain ⟨j', hfind, hj⟩ := Option.map_eq_some'.mp h
        subst hj
        obtain ⟨h1, h2⟩ := ih j' hfind
        refine ⟨by simpa using h1, ?_⟩
        intro k hk
        cases k with
        | zero =>
            rw [List.getElem?_cons_zero]
            intro hc
            exact hb (by injection hc)
        | succ k' =>
            rw [List.getElem?_cons_succ]
            exact h2 k' (by omega)

theorem chunk_not_empty (content : List Nat) (pos : Nat) (h : pos < content.length) :
    ((content.drop pos).take READ_SIZE).isEmpty = false := by
  have hl := chunk_length content pos
  have : ((content.drop pos).take READ_SIZE).length ≠ 0 := by
    rw [hl]
    have : READ_SIZE = 8192 := rfl
    omega
  rcases hd : (content.drop pos).take READ_SIZE with _ | ⟨a, l⟩
  · rw [hd] at this
    simp at this
  · rfl

theorem scan_for_null_finds_first (content : List Nat) (end_of_range : Nat) :
    ∀ (fuel pos i : Nat), content.length - pos < fuel →
      pos ≤ i → i < end_of_range → content[i]? = some 0 →
      (∀ j, pos ≤ j → j < i → content[j]? ≠ some 0) →
      scan_for_null content end_of_range fuel pos = i := by
  intro fuel
  induction fuel with
  | zero =>
      intro pos i hfuel
      exact absurd hfuel (Nat.not_lt_zero _)
  | succ fuel ih =>
      intro pos i hfuel hpi hie hzero hmin
      have hilen : i < content.length := (List.getElem?_eq_some.mp hzero).1
      have hpos_lt : pos < content.length := lt_of_le_of_lt hpi hilen
      rw [scan_for_null_succ, if_pos (lt_of_le_of_lt hpi hie),
        if_neg (by rw [chunk_not_empty content pos hpos_lt]; exact Bool.false_ne_true)]
      rcases hfind : find_null_byte ((content.drop pos).take READ_SIZE) with _ | j
      · show scan_for_null content end_of_range fuel
          (pos + ((content.drop pos).take READ_SIZE).length) = i
        have hnone := find_null_byte_none _ hfind
        have hge : pos + ((content.drop pos).take READ_SIZE).length ≤ i := by
          by_contra hlt
          push_neg at hlt
          have h1 : i - pos < ((content.drop pos).take READ_SIZE).length := by omega
          have h2 : i - pos < READ_SIZE := by
            have := chunk_length content pos
            omega
          have hc : ((content.drop pos).take READ_SIZE)[i - pos]? = content[i]? := by
            rw [chunk_getElem content pos _ h2, show pos + (i - pos) = i by omega]
          exact hnone (i - pos) (hc.trans hzero)
        apply ih
        · have hdl : 0 < ((content.drop pos).take READ_SIZE).length := by
            have := chunk_length content pos
            have hrs : READ_SIZE = 8192 := rfl
            omega
          omega
        · exact hge
        · exact hie
        · exact hzero
        · intro j hj1 hj2
          exact hmin j (le_trans (Nat.le_add_right pos _) hj1) hj2
      · show pos + j = i
        obtain ⟨hj0, hjmin⟩ := find_null_byte_some _ j hfind
        have hjlen : j < ((content.drop pos).take READ_SIZE).length :=
          (List.getElem?_eq_some.mp hj0).1
        have hjRS : j < READ_SIZE := by
          have := chunk_length content pos
          omega
        have hcz : content[pos + j]? = some 0 := by
          rw [← chunk_getElem content pos j hjRS]
          exact hj0
        have hge : i ≤ pos + j := by
          by_contra hlt
          push_neg at hlt
          exact hmin (pos + j) (Nat.le_add_right _ _) hlt hcz
        have hle : pos + j ≤ i := by
          by_contra hlt
          push_neg at hlt
          have h1 : i - pos < j := by omega
          have h2 : i - pos < READ_SIZE := lt_trans h1 hjRS
          have hc : ((content.drop pos).take READ_SIZE)[i - pos]? = content[i]? := by
            rw [chunk_getElem content pos _ h2, show pos + (i - pos) = i by omega]
          exact hjmin (i - pos) h1 (hc.trans hzero)
        omega

theorem scan_for_null_no_zero_bound (content : List Nat) (end_of_range : Nat) :
    ∀ (fuel pos : Nat), content.length - pos < fuel →
      (∀ j, pos ≤ j → j < end_of_range → content[j]? ≠ some 0) →
      min end_of_range content.length ≤ scan_for_null content end_of_range fuel pos := by
  intro fuel
  induction fuel with
  | zero =>
      intro pos hfuel
      exact absurd hfuel (Nat.not_lt_zero _)
  | succ fuel ih =>
      intro pos hfuel hnz
      by_cases hlt : pos < end_of_range
      · rw [scan_for_null_succ, if_pos hlt]
        by_cases hempty : ((content.drop pos).take READ_SIZE).isEmpty = true
        · rw [if_pos hempty]
          have hlen : ((content.drop pos).take READ_SIZE).length = 0 := by
            rcases hd : (content.drop pos).take READ_SIZE with _ | ⟨a, l⟩
            · rfl
            · rw [hd] at hempty
              simp at hempty
          have := chunk_length content pos
          have hrs : READ_SIZE = 8192 := rfl
          omega
        · rw [if_neg hempty]
          rcases hfind : find_null_byte ((content.drop pos).take READ_SIZE) with _ | j
          · show min end_of_range content.length
              ≤ scan_for_null content end_of_range fuel
                  (pos + ((content.drop pos).take READ_SIZE).length)
            have hdl : 0 < ((content.drop pos).take READ_SIZE).length := by
              rcases hd : (content.drop pos).take READ_SIZE with _ | ⟨a, l⟩
              · rw [hd] at hempty
                simp at hempty
              · simp
            apply ih
            · have hlenle : ((content.drop pos).take READ_SIZE).length
                  ≤ content.length - pos := by
                have := chunk_length content pos
                omega
              omega
            · intro j hj1 hj2
              exact hnz j (le_trans (Nat.le_add_right pos _) hj1) hj2
          · show min end_of_range content.length ≤ pos + j
            obtain ⟨hj0, -⟩ := find_null_byte_some _ j hfind
            have hjlen : j < ((content.drop pos).take READ_SIZE).length :=
              (List.getElem?_eq_some.mp hj0).1
            have hjRS : j < READ_SIZE := by
              have := chunk_length content pos
              omega
            have hcz : content[pos + j]? = some 0 := by
              rw [← chunk_getElem content pos j hjRS]
              exact hj0
            have hzlen : pos + j < content.length := (List.getElem?_eq_some.mp hcz).1
            have hout : ¬(pos + j < end_of_range) := by
              intro hin
              exact hnz (pos + j) (Nat.le_add_right _ _) hin hcz
            omega
      · rw [scan_for_null_succ, if_neg hlt]
        omega

/-- C6 (amended): for an existing destination file with bytes `content`,
`_get_first_null_byte_index` returns the index of the first zero byte at or
after `offset` whenever that index lies within `[offset, offset + length)`
(the resume point); when that range contains no zero byte the returned value
is at least `min (offset + length) content.length` — but not necessarily
equal to `offset + length`, because the scan reads 8 KiB chunks that may run
past the requested range (see the counterexample); it returns 0 when the
destination file does not exist. -/
theorem C6_first_null_byte_semantics (content : List Nat) (offset length : Nat) :
    get_first_null_byte_index false content offset length = 0
    ∧ (∀ i, content[i]? = some 0 → offset ≤ i → i < offset + length →
        (∀ j, offset ≤ j → j < i → content[j]? ≠ some 0) →
        get_first_null_byte_index true content offset length = i)
    ∧ ((∀ j, offset ≤ j → j < offset + length → content[j]? ≠ some 0) →
        min (offset + length) content.length
          ≤ get_first_null_byte_index true content offset length) := by
  refine ⟨rfl, ?_, ?_⟩
  · intro i hzero hoi hie hmin
    unfold get_first_null_byte_index
    rw [if_pos rfl]
    exact scan_for_null_finds_first content (offset + length)
      (content.length + 1) offset i (by omega) hoi hie hzero hmin
  · intro hnz
    unfold get_first_null_byte_index
    rw [if_pos rfl]
    exact scan_for_null_no_zero_bound content (offset + length)
      (content.length + 1) offset (by omega) hnz

/-- C6 witness: for the existing file `[1, 0, 1]` and range `[0, 3)`, the
scan returns 1, the index of the first zero byte in the range. -/
theorem C6_first_null_byte_witness :
    get_first_null_byte_index true [1, 0, 1] 0 3 = 1 :=
  (C6_first_null_byte_semantics [1, 0, 1] 0 3).2.1 1 rfl (by omega) (by omega)
    (by
      intro j h1 h2
      have hj : j = 0 := by omega
      subst hj
      decide)

/-- C6 counterexample: the claim says `_get_first_null_byte_index` returns
`offset + length` when the byte range contains no zero byte.  For an existing
destination file with bytes `[1, 1, 1]`, `offset = 0` and `length = 2`, the
range `[0, 2)` contains no zero byte, but the function returns 3, not 2: the
8 KiB chunk read runs past the end of the range and the position advances by
the whole chunk before the loop condition is rechecked. -/
theorem C6_counterexample_overshoot :
    get_first_null_byte_index true [1, 1, 1] 0 2 = 3 ∧ (3 : Nat) ≠ 0 + 2 := by
  decide

/-- C8 (amended): for a resumable sliced-download component whose computed
start byte exceeds its end byte (its range was fully downloaded by a prior
attempt), the task performs no network transfer; it catches up its digesters
from the component's offset through the *source object's total size* (not
just the component's own byte range — see the counterexample), and returns
the output of `_get_output`: an `Output` containing the CRC32C checksum
message (component number, checksum, length) when a CRC32C digester is
present, and `None` otherwise. -/
theorem C8_component_already_downloaded (source_size : Nat) (dest_exists : Bool)
    (dest_content : List Nat) (offset length : Nat) (found_tracker_file : Bool)
    (digesters : List HashAlgorithm) (component_number : Option Nat)
    (crc32c_checksum : Nat)
    (h : ((if found_tracker_file
            then get_first_null_byte_index dest_exists dest_content offset length
            else offset : Nat) : Int)
          > (offset : Int) + (length : Int) - 1) :
    perform_component_download source_size dest_exists dest_content offset length
        DownloadStrategy.RESUMABLE found_tracker_file digesters component_number
        crc32c_checksum
      = { catch_up_range := some (offset, source_size)
          download := none
          output :=
            if digesters.contains HashAlgorithm.CRC32C then
              some { additional_task_iterators := none
                     messages := some [{ topic := Topic.CRC32C
                                         payload := Payload.crcReport component_number
                                           crc32c_checksum length }] }
            else none } := by
  unfold perform_component_download get_output
  rw [if_pos rfl, if_pos h]

/-- C8 witness: a 5-byte source sliced into components, whose first component
`[0, 2)` is fully non-null on disk with a tracker file present: the computed
start byte 2 exceeds the end byte 1, no transfer happens, the catch-up runs
over `(0, 5)`, and the CRC32C checksum message is returned. -/
theorem C8_component_already_downloaded_witness :
    perform_component_download 5 true [1, 1] 0 2 DownloadStrategy.RESUMABLE true
        [HashAlgorithm.CRC32C] (some 0) 99
      = { catch_up_range := some (0, 5)
          download := none
          output :=
            if [HashAlgorithm.CRC32C].contains HashAlgorithm.CRC32C then
              some { additional_task_iterators := none
                     messages := some [{ topic := Topic.CRC32C
                                         payload := Payload.crcReport (some 0) 99 2 }] }
            else none } :=
  C8_component_already_downloaded 5 true [1, 1] 0 2 true [HashAlgorithm.CRC32C]
    (some 0) 99 (by decide)

/-- C8 counterexample: the claim says the digesters are caught up "across the
component's whole byte range".  For the component `[0, 2)` of a 5-byte source
(already fully downloaded, tracker present, CRC32C digester created), the
code calls `_catch_up_digesters(digesters, start_byte=self._offset,
end_byte=self._source_resource.size)`: the catch-up range is `(0, 5)` — up to
the source's total size — not the component's own range `(0, 2)`. -/
theorem C8_counterexample_catchup_past_range :
    (perform_component_download 5 true [1, 1] 0 2 DownloadStrategy.RESUMABLE true
        [HashAlgorithm.CRC32C] (some 0) 99).catch_up_range ≠ some (0, 0 + 2) := by
  decide

end Gcloud
